import Mathlib

/-!
Verification development for the WebKit GPU-process resource-proxy layer
(RemoteTexture, RemoteBindGroupLayout, RemoteDevice, RemoteRenderPassEncoder,
RemoteVideoFrameProxy and the ObjectRegistry/ObjectHeap they use).

The privileged-process state is embedded shallowly: ObjectRegistry and
ObjectHeap are association lists keyed by WebGPUIdentifier (modelled as Nat),
backing native resources live in a separate store, and each wire message is a
state-transition function translated from the corresponding C++ handler.
Handlers whose bodies are not part of this snapshot (ObjectHeap/ObjectRegistry
internals, RemoteDevice.cpp, RemoteRenderPassEncoder.cpp,
RemoteVideoFrameProxy.cpp) are modelled from the specification and are marked
as such in their doc comments.
-/

/-- Association-list lookup keyed by Nat identifiers (model of HashMap::get). -/
def lookupA {β : Type} (k : Nat) : List (Nat × β) → Option β
  | [] => none
  | (k2, v) :: rest => if k = k2 then some v else lookupA k rest

/-- Association-list removal of every binding of a key (model of HashMap::remove). -/
def removeA {β : Type} (k : Nat) : List (Nat × β) → List (Nat × β)
  | [] => []
  | (k2, v) :: rest => if k = k2 then removeA k rest else (k2, v) :: removeA k rest

/-- Association-list in-place update of the bindings of a key. -/
def updateA {β : Type} (k : Nat) (f : β → β) : List (Nat × β) → List (Nat × β)
  | [] => []
  | (k2, v) :: rest => if k = k2 then (k2, f v) :: updateA k f rest else (k2, v) :: updateA k f rest

/-- Backing native resource (PAL::WebGPU object owned by the privileged process).
Carries the observable state mutated by forwarded operations: its label
(`setLabel`), whether `destroy()` was forwarded to it, and, for render-pass
encoders, the bind groups applied to it (index paired with the backing id of
the bind group). -/
structure Backing where
  label : String
  destroyed : Bool
  boundGroups : List (Nat × Nat)
  deriving DecidableEq, Repr

/-- Initial state of a freshly created backing resource. -/
def Backing.fresh : Backing := ⟨"", false, []⟩

/-- ResourceProxy (RemoteTexture / RemoteTextureView / RemoteBindGroupLayout /
RemoteRenderPassEncoder, ...): m_backing is the key of its backing resource,
m_identifier its WebGPUIdentifier. The m_objectRegistry / m_objectHeap
back-references are the global state below. -/
structure Proxy where
  backing : Nat
  identifier : Nat
  deriving DecidableEq, Repr

/-- Privileged-process state: ObjectRegistry (Identifier to backing-resource
reference), ObjectHeap (Identifier to owning proxy), the store of backing
native resources, a fresh-backing allocator, and a log of every Identifier for
which a ResourceProxy was ever constructed. -/
structure GState where
  registry : List (Nat × Nat)
  heap : List (Nat × Proxy)
  backings : List (Nat × Backing)
  nextBacking : Nat
  created : List Nat
  deriving DecidableEq, Repr

/-- Empty privileged-process state. -/
def GState.init : GState := ⟨[], [], [], 0, []⟩

/-- Modelled from the spec: ObjectRegistry::addObject (the registry body is not
in this snapshot). Registers a resolver entry; a duplicate insert is a protocol
anomaly that is asserted in debug and a no-op in release. -/
def registryAddObject (id b : Nat) (reg : List (Nat × Nat)) : List (Nat × Nat) :=
  if (lookupA id reg).isSome then reg else (id, b) :: reg

/-- Modelled from the spec: ObjectRegistry::removeObject (the registry body is
not in this snapshot). Idempotently removes; removing an absent id is a no-op. -/
def registryRemoveObject (id : Nat) (reg : List (Nat × Nat)) : List (Nat × Nat) :=
  removeA id reg

/-- Modelled from the spec: ObjectHeap::addObject (the heap body is not in this
snapshot). Inserts the proxy under its own identifier, asserting the identifier
is not already present; the duplicate case is a no-op in release. -/
def heapAddObject (p : Proxy) (heap : List (Nat × Proxy)) : List (Nat × Proxy) :=
  if (lookupA p.identifier heap).isSome then heap else (p.identifier, p) :: heap

/-- ResourceProxy constructor, translated from RemoteTexture::RemoteTexture and
RemoteBindGroupLayout::RemoteBindGroupLayout: stores m_backing and m_identifier
and runs m_objectRegistry.addObject(m_identifier, m_backing). The constructed
identifier is also logged in `created`. -/
def proxyConstruct (b id : Nat) (st : GState) : Proxy × GState :=
  (⟨b, id⟩,
    { st with
      registry := registryAddObject id b st.registry
      created := id :: st.created })

/-- Modelled from the spec: ObjectHeap::removeObject (the heap body is not in
this snapshot). Removes the heap entry and drops the owning reference, which
runs the proxy destructor; the destructor (translated from
RemoteTexture::~RemoteTexture / RemoteBindGroupLayout::~RemoteBindGroupLayout)
runs m_objectRegistry.removeObject(m_identifier). -/
def heapRemoveObject (id : Nat) (st : GState) : GState :=
  match lookupA id st.heap with
  | none => st
  | some p =>
    { st with
      heap := removeA id st.heap
      registry := registryRemoveObject p.identifier st.registry }

/-- WebGPU::TextureViewDescriptor as seen by the proxy layer: the embedded
WebGPUIdentifiers that ObjectRegistry::convertFromBacking must resolve. -/
structure TextureViewDescriptor where
  usedIds : List Nat
  deriving DecidableEq, Repr

/-- Resolution of a list of embedded identifiers against the registry; fails if
any identifier is absent. -/
def convertIds (reg : List (Nat × Nat)) : List Nat → Option (List Nat)
  | [] => some []
  | i :: rest =>
    match lookupA i reg, convertIds reg rest with
    | some b, some bs => some (b :: bs)
    | _, _ => none

/-- Modelled from the spec: ObjectRegistry::convertFromBacking (the registry
body is not in this snapshot). Resolves each Identifier embedded in the
descriptor to its backing resource; returns a failure result if any identifier
is unresolved. -/
def convertFromBacking (reg : List (Nat × Nat)) (d : TextureViewDescriptor) :
    Option (List Nat) :=
  convertIds reg d.usedIds

/-- RemoteTexture::createView, translated from RemoteTexture.cpp:
with a present descriptor, convertFromBacking it and return with no effect on
failure; on success call m_backing->createView (allocating a fresh backing
texture view), construct a RemoteTextureView (whose constructor registers the
new identifier in the registry) and m_objectHeap.addObject it. With an absent
descriptor the code dereferences the disengaged convertedDescriptor optional,
which has no defined result (`none`). -/
def textureCreateView (descriptor : Option TextureViewDescriptor) (id : Nat)
    (st : GState) : Option GState :=
  match descriptor with
  | none => none
  | some d =>
    match convertFromBacking st.registry d with
    | none => some st
    | some _ =>
      let b := st.nextBacking
      let st1 := { st with
        backings := (b, Backing.fresh) :: st.backings
        nextBacking := b + 1 }
      let pr := proxyConstruct b id st1
      some { pr.2 with heap := heapAddObject pr.1 pr.2.heap }

/-- RemoteTexture::destroy, translated from RemoteTexture.cpp: forwards to
m_backing->destroy() only. -/
def textureDestroy (p : Proxy) (st : GState) : GState :=
  { st with backings := updateA p.backing (fun b => { b with destroyed := true }) st.backings }

/-- RemoteTexture::setLabel / RemoteBindGroupLayout::setLabel, translated from
RemoteTexture.cpp and RemoteBindGroupLayout.cpp: forwards to
m_backing->setLabel(label) only. -/
def proxySetLabel (p : Proxy) (label : String) (st : GState) : GState :=
  { st with backings := updateA p.backing (fun b => { b with label := label }) st.backings }

/-- Modelled from the spec: RemoteRenderPassEncoder::setBindGroup (only its
declaration is in this snapshot). Resolves the bind-group Identifier via the
registry; if it is unresolved the operation is dropped without mutating the
backing render-pass encoder; otherwise the bind group is applied to the
backing. -/
def encoderSetBindGroup (p : Proxy) (index groupId : Nat) (st : GState) : GState :=
  match lookupA groupId st.registry with
  | none => st
  | some gb =>
    { st with
      backings := updateA p.backing
        (fun b => { b with boundGroups := (index, gb) :: b.boundGroups }) st.backings }

/-- Modelled from the spec: ObjectHeap::releaseUnused /
RemoteVideoFrameProxy::releaseUnused (only declarations are in this snapshot).
Reclamation path for a creation whose client reference was already released:
a pure no-op acknowledgment that consumes and discards the would-be resource
without materializing a ResourceProxy. -/
def releaseUnused (_id : Nat) (st : GState) : GState := st

/-- Modelled from the spec: RemoteDevice::createTexture (RemoteDevice.cpp is
not in this snapshot), following the child-resource creation shape shown by
RemoteTexture::createView: allocate the backing texture, construct a
RemoteTexture (its constructor registers the identifier, per
RemoteTexture.cpp) and insert it into the ObjectHeap. -/
def deviceCreateTexture (id : Nat) (st : GState) : GState :=
  let b := st.nextBacking
  let st1 := { st with
    backings := (b, Backing.fresh) :: st.backings
    nextBacking := b + 1 }
  let pr := proxyConstruct b id st1
  { pr.2 with heap := heapAddObject pr.1 pr.2.heap }

/-- Wire messages handled by the proxy layer in this model. -/
inductive Msg where
  | createTexture (id : Nat)
  | createView (parent : Nat) (descriptor : Option TextureViewDescriptor) (id : Nat)
  | destroyTexture (target : Nat)
  | setLabel (target : Nat) (label : String)
  | setBindGroup (target index groupId : Nat)
  | heapRemove (id : Nat)
  | releaseUnusedMsg (id : Nat)
  deriving DecidableEq, Repr

/-- Message-level step of the privileged process. Messages addressed to an
Identifier are routed to the proxy held by the ObjectHeap; a message whose
receiver is absent is dropped. `none` marks the one undefined execution
(createView with an absent descriptor dereferences a disengaged optional). -/
def step (st : GState) : Msg → Option GState
  | .createTexture id => some (deviceCreateTexture id st)
  | .createView parent d id =>
    match lookupA parent st.heap with
    | none => some st
    | some _ => textureCreateView d id st
  | .destroyTexture t =>
    match lookupA t st.heap with
    | none => some st
    | some p => some (textureDestroy p st)
  | .setLabel t label =>
    match lookupA t st.heap with
    | none => some st
    | some p => some (proxySetLabel p label st)
  | .setBindGroup t i g =>
    match lookupA t st.heap with
    | none => some st
    | some p => some (encoderSetBindGroup p i g st)
  | .heapRemove id => some (heapRemoveObject id st)
  | .releaseUnusedMsg id => some (releaseUnused id st)

/-- States of the privileged process reachable from the empty state by
processed messages. -/
inductive Reachable : GState → Prop where
  | init : Reachable GState.init
  | step {s s2 : GState} {m : Msg} : Reachable s → step s m = some s2 → Reachable s2

/-- Coherence of the two privileged-process maps: an identifier resolves in the
ObjectRegistry exactly when a proxy for it is alive in the ObjectHeap. -/
def coherent (st : GState) : Prop :=
  ∀ id, (lookupA id st.registry).isSome ↔ (lookupA id st.heap).isSome

/-- Every ObjectHeap entry stores a proxy under that proxy's own identifier. -/
def heapKeysConsistent (st : GState) : Prop :=
  ∀ k p, lookupA k st.heap = some p → p.identifier = k

/-- Combined inductive invariant of the privileged-process state. -/
def StateInv (st : GState) : Prop :=
  coherent st ∧ heapKeysConsistent st

/-- Scenario state for the child-view theorems: a texture proxy created under
Identifier 1. -/
def childScenarioBase : GState := deviceCreateTexture 1 GState.init

/-- Scenario state after the texture under Identifier 1 created a view under
Identifier 2 (descriptor embedding Identifier 1, which resolves). -/
def childScenarioAfterView : GState :=
  (step childScenarioBase (Msg.createView 1 (some ⟨[1]⟩) 2)).getD GState.init

/-- MediaTime as used by RemoteVideoFrameProxy::Properties (value/timescale). -/
structure MediaTime where
  value : Int
  timescale : Nat
  deriving DecidableEq, Repr

/-- WebCore VideoFrame rotation, as carried by Properties. -/
inductive VideoRotation where
  | noRotation
  | upsideDown
  | left
  | right
  deriving DecidableEq, Repr

/-- WebCore::IntSize as carried by Properties. -/
structure IntSize where
  width : Int
  height : Int
  deriving DecidableEq, Repr

/-- RemoteVideoFrameProxy::Properties, translated from RemoteVideoFrameProxy.h:
the RemoteVideoFrameReference (modelled by its identifier number), the
presentation time, mirroring, rotation, size and pixel format. -/
structure Properties where
  reference : Nat
  presentationTime : MediaTime
  isMirrored : Bool
  rotation : VideoRotation
  size : IntSize
  pixelFormat : Nat
  deriving DecidableEq, Repr

/-- Typed items on the serialization wire for Properties. -/
inductive WireItem where
  | time (t : MediaTime)
  | boolean (b : Bool)
  | rot (r : VideoRotation)
  | isize (s : IntSize)
  | u32 (n : Nat)
  | ref (r : Nat)
  deriving DecidableEq, Repr

/-- RemoteVideoFrameProxy::Properties::encode, translated from
RemoteVideoFrameProxy.h: streams presentationTime, isMirrored, rotation, size
and pixelFormat; the reference member is not encoded. -/
def encodeProperties (p : Properties) : List WireItem :=
  [.time p.presentationTime, .boolean p.isMirrored, .rot p.rotation,
    .isize p.size, .u32 p.pixelFormat]

/-- Typed read of a MediaTime from the wire (model of the stream-in operator). -/
def readTime : List WireItem → Option (MediaTime × List WireItem)
  | .time t :: rest => some (t, rest)
  | _ => none

/-- Typed read of a Bool from the wire (model of the stream-in operator). -/
def readBool : List WireItem → Option (Bool × List WireItem)
  | .boolean b :: rest => some (b, rest)
  | _ => none

/-- Typed read of a VideoRotation from the wire (model of the stream-in operator). -/
def readRotation : List WireItem → Option (VideoRotation × List WireItem)
  | .rot r :: rest => some (r, rest)
  | _ => none

/-- Typed read of an IntSize from the wire (model of the stream-in operator). -/
def readSize : List WireItem → Option (IntSize × List WireItem)
  | .isize s :: rest => some (s, rest)
  | _ => none

/-- Typed read of a uint32_t from the wire (model of the stream-in operator). -/
def readU32 : List WireItem → Option (Nat × List WireItem)
  | .u32 n :: rest => some (n, rest)
  | _ => none

/-- RemoteVideoFrameProxy::Properties::decode, translated from
RemoteVideoFrameProxy.h: declares an optional `reference` that is never read
from the decoder, reads presentationTime, isMirrored, rotation, size and
pixelFormat, checks validity, and then constructs the result by dereferencing
each optional. Dereferencing the never-assigned `reference` optional has no
defined result, which the embedding renders as `none`. -/
def decodeProperties (ws : List WireItem) : Option Properties :=
  let reference : Option Nat := none
  match readTime ws with
  | none => none
  | some (pt, ws1) =>
    match readBool ws1 with
    | none => none
    | some (mir, ws2) =>
      match readRotation ws2 with
      | none => none
      | some (vr, ws3) =>
        match readSize ws3 with
        | none => none
        | some (sz, ws4) =>
          match readU32 ws4 with
          | none => none
          | some (pf, _) =>
            match reference with
            | none => none
            | some r => some ⟨r, pt, mir, vr, sz, pf⟩

/-- GPUErrorFilter values passed to pushErrorScope. -/
inductive ErrorFilter where
  | validation
  | outOfMemory
  | internalErr
  deriving DecidableEq, Repr

/-- Kinds of GPU errors captured by error scopes. -/
inductive GPUErrorKind where
  | validationError
  | outOfMemoryError
  | internalError
  deriving DecidableEq, Repr

/-- Whether an error scope filter captures a given error kind. -/
def filterMatches : ErrorFilter → GPUErrorKind → Bool
  | .validation, .validationError => true
  | .outOfMemory, .outOfMemoryError => true
  | .internalErr, .internalError => true
  | _, _ => false

/-- One pushed error scope: its filter, the logical time of its push, and at
most one captured error tagged with its generation time. -/
structure ErrScope where
  filter : ErrorFilter
  pushTime : Nat
  err : Option (GPUErrorKind × Nat)
  deriving DecidableEq, Repr

/-- Reply delivered by a popErrorScope completion handler: either the popped
scope's captured error (possibly absent), or a protocol-error result for a pop
with no matching push. -/
inductive PopReply where
  | ok (e : Option (GPUErrorKind × Nat))
  | protocolError
  deriving DecidableEq, Repr

/-- Error-scope state of a device: the LIFO stack of open scopes, a logical
clock, and the log of pop replies (most recent first). -/
structure DevState where
  scopes : List ErrScope
  clock : Nat
  replies : List PopReply
  deriving DecidableEq, Repr

/-- Device state with no open error scopes. -/
def DevState.init : DevState := ⟨[], 0, []⟩

/-- Modelled from the spec: RemoteDevice::pushErrorScope (only its declaration
is in this snapshot). Opens a new innermost scope with the given filter. -/
def pushErrorScope (f : ErrorFilter) (st : DevState) : DevState :=
  { st with scopes := ⟨f, st.clock, none⟩ :: st.scopes, clock := st.clock + 1 }

/-- Capture of a generated error by the innermost scope whose filter matches;
a scope keeps at most its first captured error. -/
def captureError (e : GPUErrorKind) (t : Nat) : List ErrScope → List ErrScope
  | [] => []
  | s :: rest =>
    if filterMatches s.filter e then
      if s.err = none then { s with err := some (e, t) } :: rest else s :: rest
    else s :: captureError e t rest

/-- Generation of a backing-resource error at the current logical time. -/
def generateError (e : GPUErrorKind) (st : DevState) : DevState :=
  { st with scopes := captureError e st.clock st.scopes, clock := st.clock + 1 }

/-- Modelled from the spec: RemoteDevice::popErrorScope (only its declaration
is in this snapshot). Pops the innermost scope and reports its captured error
to the completion handler; a pop with no matching push completes with a
protocol-error result instead of terminating the process. -/
def popErrorScope (st : DevState) : PopReply × DevState :=
  match st.scopes with
  | [] =>
    (.protocolError,
      { st with clock := st.clock + 1, replies := .protocolError :: st.replies })
  | s :: rest =>
    (.ok s.err,
      { st with scopes := rest, clock := st.clock + 1, replies := .ok s.err :: st.replies })

/-- Events on a device's error-scope protocol. -/
inductive DevEvent where
  | push (f : ErrorFilter)
  | genError (e : GPUErrorKind)
  | pop
  deriving DecidableEq, Repr

/-- One error-scope event applied to the device state. -/
def devStep (st : DevState) : DevEvent → DevState
  | .push f => pushErrorScope f st
  | .genError e => generateError e st
  | .pop => (popErrorScope st).2

/-- Run of a list of error-scope events from a given state. -/
def runDevFrom (st : DevState) : List DevEvent → DevState
  | [] => st
  | e :: evs => runDevFrom (devStep st e) evs

/-- Run of a list of error-scope events from the initial device state. -/
def runDev (evs : List DevEvent) : DevState :=
  runDevFrom DevState.init evs

/-- Timeliness of the open scopes: every scope was pushed before now, and every
captured error was generated strictly after its scope's push and before now. -/
def scopesTimely (st : DevState) : Prop :=
  ∀ s ∈ st.scopes,
    s.pushTime < st.clock ∧ ∀ e t, s.err = some (e, t) → s.pushTime < t ∧ t < st.clock

/-- Events of an asynchronous-completion operation family
(createComputePipelineAsync, createRenderPipelineAsync, popErrorScope):
an operation starts carrying completion handler `h`, the underlying work
completes for `h`, or the connection/device is torn down. -/
inductive AsyncEvent where
  | start (h : Nat)
  | complete (h : Nat)
  | teardown
  deriving DecidableEq, Repr

/-- Bookkeeping of completion handlers: the in-flight handlers and the log of
invocations, each tagged with its outcome (true = completed, false = failed
due to teardown). -/
structure AsyncState where
  pending : List Nat
  invoked : List (Nat × Bool)
  deriving DecidableEq, Repr

/-- Modelled from the spec: completion-handler discipline of the asynchronous
operations (RemoteDevice.cpp is not in this snapshot). A start records the
handler as in flight; a completion invokes the handler once and retires it
(a completion for a handler no longer in flight invokes nothing); teardown
invokes every still-pending handler once with a failure outcome. -/
def asyncStep (st : AsyncState) : AsyncEvent → AsyncState
  | .start h => { st with pending := h :: st.pending }
  | .complete h =>
    if h ∈ st.pending then
      { pending := st.pending.erase h, invoked := (h, true) :: st.invoked }
    else st
  | .teardown => { pending := [], invoked := st.pending.map (fun x => (x, false)) ++ st.invoked }

/-- Run of asynchronous-completion events from a given state. -/
def runAsyncFrom (st : AsyncState) : List AsyncEvent → AsyncState
  | [] => st
  | e :: evs => runAsyncFrom (asyncStep st e) evs

/-- Run of asynchronous-completion events from the empty state. -/
def runAsync (evs : List AsyncEvent) : AsyncState :=
  runAsyncFrom ⟨[], []⟩ evs

/-- Number of starts of handler `h` in an event list. -/
def startCount (h : Nat) : List AsyncEvent → Nat
  | [] => 0
  | .start h2 :: evs => (if h2 = h then 1 else 0) + startCount h evs
  | .complete _ :: evs => startCount h evs
  | .teardown :: evs => startCount h evs

/-- Number of invocations of handler `h` in an invocation log. -/
def invokedCount (h : Nat) (l : List (Nat × Bool)) : Nat :=
  l.countP (fun x => x.1 == h)

/-- Events on a RemoteVideoFrameProxy handle's payload fetch: a synchronous
pixelBuffer() call, an asynchronous fetch registering callback `cb`, or the
arrival of the FetchPayload reply with payload `p`. -/
inductive FetchEvent where
  | syncFetch
  | asyncFetch (cb : Nat)
  | reply (p : Nat)
  deriving DecidableEq, Repr

/-- Client-side fetch state of one RemoteVideoFrameProxy handle: the memoized
payload cache, whether a FetchPayload round trip is in flight, the number of
threads blocked on the semaphore, the registered asynchronous callbacks, the
number of round trips issued, and the log of deliveries (caller tag, payload).
A `none` caller tag is a blocked synchronous caller. -/
structure FetchState where
  cache : Option Nat
  inFlight : Bool
  syncWaiters : Nat
  callbacks : List Nat
  roundTrips : Nat
  delivered : List (Option Nat × Nat)
  deriving DecidableEq, Repr

/-- Fetch state of a freshly created handle: empty cache, nothing in flight. -/
def FetchState.init : FetchState := ⟨none, false, 0, [], 0, []⟩

/-- Modelled from the spec: RemoteVideoFrameProxy::pixelBuffer /
getPixelBuffer (RemoteVideoFrameProxy.cpp is not in this snapshot). A cached
payload is returned immediately; otherwise the caller is coalesced onto the
in-flight FetchPayload round trip, issuing it only if none is in flight; the
reply memoizes the payload and delivers it to every blocked caller and every
registered callback. -/
def fetchStep (st : FetchState) : FetchEvent → FetchState
  | .syncFetch =>
    match st.cache with
    | some p => { st with delivered := (none, p) :: st.delivered }
    | none =>
      if st.inFlight then { st with syncWaiters := st.syncWaiters + 1 }
      else
        { st with
          inFlight := true
          roundTrips := st.roundTrips + 1
          syncWaiters := st.syncWaiters + 1 }
  | .asyncFetch cb =>
    match st.cache with
    | some p => { st with delivered := (some cb, p) :: st.delivered }
    | none =>
      if st.inFlight then { st with callbacks := cb :: st.callbacks }
      else
        { st with
          inFlight := true
          roundTrips := st.roundTrips + 1
          callbacks := cb :: st.callbacks }
  | .reply p =>
    { st with
      cache := some p
      inFlight := false
      delivered := List.replicate st.syncWaiters (none, p) ++
        st.callbacks.map (fun c => (some c, p)) ++ st.delivered
      syncWaiters := 0
      callbacks := [] }

/-- Run of fetch events from a given state. -/
def runFetchFrom (st : FetchState) : List FetchEvent → FetchState
  | [] => st
  | e :: evs => runFetchFrom (fetchStep st e) evs

/-- Run of fetch events from the fresh-handle state. -/
def runFetch (evs : List FetchEvent) : FetchState :=
  runFetchFrom FetchState.init evs

/-- Whether a fetch event is a caller request (not the transport reply). -/
def isFetchReq : FetchEvent → Bool
  | .reply _ => false
  | _ => true

/-- Coalesced-fetch invariant: empty cache, nothing delivered yet, one round
trip in flight, and `n` callers waiting on it in total. -/
def coalesced (st : FetchState) (n : Nat) : Prop :=
  st.cache = none ∧ st.delivered = [] ∧ st.inFlight = true ∧ st.roundTrips = 1 ∧
    st.syncWaiters + st.callbacks.length = n

theorem lookupA_removeA_self {β : Type} (k : Nat) (l : List (Nat × β)) :
    lookupA k (removeA k l) = none := by
  induction l with
  | nil => rfl
  | cons hd tl ih =>
    obtain ⟨k2, v⟩ := hd
    by_cases h : k = k2
    · subst h
      simp [removeA, ih]
    · simp [removeA, lookupA, h, ih]

theorem lookupA_removeA_ne {β : Type} {k k2 : Nat} (h : k2 ≠ k) (l : List (Nat × β)) :
    lookupA k2 (removeA k l) = lookupA k2 l := by
  induction l with
  | nil => rfl
  | cons hd tl ih =>
    obtain ⟨k3, v⟩ := hd
    by_cases hk : k = k3
    · subst hk
      simp [removeA, lookupA, h, ih]
    · by_cases hk2 : k2 = k3
      · simp [removeA, lookupA, hk, hk2]
      · simp [removeA, lookupA, hk, hk2, ih]

theorem lookupA_cons_self {β : Type} (k : Nat) (v : β) (l : List (Nat × β)) :
    lookupA k ((k, v) :: l) = some v := by
  simp [lookupA]

theorem lookupA_cons_ne {β : Type} {k k2 : Nat} (h : k2 ≠ k) (v : β) (l : List (Nat × β)) :
    lookupA k2 ((k, v) :: l) = lookupA k2 l := by
  simp [lookupA, h]

theorem lookupA_updateA_ne {β : Type} {k k2 : Nat} (h : k2 ≠ k) (f : β → β) (l : List (Nat × β)) :
    lookupA k2 (updateA k f l) = lookupA k2 l := by
  induction l with
  | nil => rfl
  | cons hd tl ih =>
    obtain ⟨k3, v⟩ := hd
    by_cases hk : k = k3
    · subst hk
      simp [updateA, lookupA, h, ih]
    · by_cases hk2 : k2 = k3
      · simp [updateA, lookupA, hk, hk2]
      · simp [updateA, lookupA, hk, hk2, ih]

theorem isSome_registryAddObject (id b id2 : Nat) (reg : List (Nat × Nat)) :
    (lookupA id2 (registryAddObject id b reg)).isSome ↔
      (id2 = id ∨ (lookupA id2 reg).isSome) := by
  unfold registryAddObject
  by_cases hp : (lookupA id reg).isSome
  · rw [if_pos hp]
    constructor
    · exact Or.inr
    · rintro (rfl | h)
      · exact hp
      · exact h
  · rw [if_neg hp]
    by_cases he : id2 = id
    · subst he
      simp [lookupA_cons_self, hp]
    · rw [lookupA_cons_ne he]
      constructor
      · exact Or.inr
      · rintro (h | h)
        · exact absurd h he
        · exact h

theorem isSome_heapAddObject (p : Proxy) (id2 : Nat) (heap : List (Nat × Proxy)) :
    (lookupA id2 (heapAddObject p heap)).isSome ↔
      (id2 = p.identifier ∨ (lookupA id2 heap).isSome) := by
  unfold heapAddObject
  by_cases hp : (lookupA p.identifier heap).isSome
  · rw [if_pos hp]
    constructor
    · exact Or.inr
    · rintro (rfl | h)
      · exact hp
      · exact h
  · rw [if_neg hp]
    by_cases he : id2 = p.identifier
    · subst he
      simp [lookupA_cons_self, hp]
    · rw [lookupA_cons_ne he]
      constructor
      · exact Or.inr
      · rintro (h | h)
        · exact absurd h he
        · exact h

theorem heapAddObject_keys {p q : Proxy} {k : Nat} {heap : List (Nat × Proxy)}
    (hinv : ∀ k2 q2, lookupA k2 heap = some q2 → q2.identifier = k2)
    (h : lookupA k (heapAddObject p heap) = some q) : q.identifier = k := by
  unfold heapAddObject at h
  by_cases hp : (lookupA p.identifier heap).isSome
  · rw [if_pos hp] at h
    exact hinv k q h
  · rw [if_neg hp] at h
    by_cases he : k = p.identifier
    · subst he
      rw [lookupA_cons_self] at h
      cases h
      rfl
    · rw [lookupA_cons_ne he] at h
      exact hinv k q h

/-- Creation of a texture proxy preserves the combined invariant: the
constructor registers the identifier and the heap insertion uses that same
identifier as its key. -/
theorem stateInv_deviceCreateTexture {st : GState} (hinv : StateInv st) (id : Nat) :
    StateInv (deviceCreateTexture id st) := by
  obtain ⟨hc, hk⟩ := hinv
  constructor
  · intro id2
    unfold deviceCreateTexture proxyConstruct
    simp only
    rw [isSome_registryAddObject, isSome_heapAddObject]
    exact or_congr Iff.rfl (hc id2)
  · intro k p hp
    unfold deviceCreateTexture proxyConstruct at hp
    simp only at hp
    exact heapAddObject_keys hk hp

theorem stateInv_textureCreateView {st st2 : GState} (hinv : StateInv st)
    {d : Option TextureViewDescriptor} {id : Nat}
    (h : textureCreateView d id st = some st2) : StateInv st2 := by
  obtain ⟨hc, hk⟩ := hinv
  unfold textureCreateView at h
  match d with
  | none => cases h
  | some dd =>
    simp only at h
    cases hcv : convertFromBacking st.registry dd with
    | none =>
      rw [hcv] at h
      cases h
      exact ⟨hc, hk⟩
    | some bs =>
      rw [hcv] at h
      simp only [proxyConstruct] at h
      cases h
      constructor
      · intro id2
        rw [isSome_registryAddObject, isSome_heapAddObject]
        exact or_congr Iff.rfl (hc id2)
      · intro k p hp
        exact heapAddObject_keys hk hp

theorem stateInv_heapRemoveObject {st : GState} (hinv : StateInv st) (id : Nat) :
    StateInv (heapRemoveObject id st) := by
  obtain ⟨hc, hk⟩ := hinv
  unfold heapRemoveObject
  cases hp : lookupA id st.heap with
  | none => exact ⟨hc, hk⟩
  | some p =>
    have hpid : p.identifier = id := hk id p hp
    constructor
    · intro id2
      simp only [registryRemoveObject, hpid]
      by_cases he : id2 = id
      · subst he
        rw [lookupA_removeA_self, lookupA_removeA_self]
        exact Iff.rfl
      · rw [lookupA_removeA_ne he, lookupA_removeA_ne he]
        exact hc id2
    · intro k q hq
      simp only at hq
      by_cases he : k = id
      · subst he
        rw [lookupA_removeA_self] at hq
        cases hq
      · rw [lookupA_removeA_ne he] at hq
        exact hk k q hq

/-- One processed message preserves the combined invariant. -/
theorem stateInv_step {s s2 : GState} {m : Msg} (hinv : StateInv s)
    (h : step s m = some s2) : StateInv s2 := by
  cases m with
  | createTexture id =>
    simp only [step] at h
    cases h
    exact stateInv_deviceCreateTexture hinv id
  | createView parent d id =>
    simp only [step] at h
    cases hp : lookupA parent s.heap with
    | none =>
      rw [hp] at h
      cases h
      exact hinv
    | some p =>
      rw [hp] at h
      exact stateInv_textureCreateView hinv h
  | destroyTexture t =>
    simp only [step] at h
    cases hp : lookupA t s.heap with
    | none =>
      rw [hp] at h
      cases h
      exact hinv
    | some p =>
      rw [hp] at h
      cases h
      obtain ⟨hc, hk⟩ := hinv
      exact ⟨hc, hk⟩
  | setLabel t label =>
    simp only [step] at h
    cases hp : lookupA t s.heap with
    | none =>
      rw [hp] at h
      cases h
      exact hinv
    | some p =>
      rw [hp] at h
      cases h
      obtain ⟨hc, hk⟩ := hinv
      exact ⟨hc, hk⟩
  | setBindGroup t i g =>
    simp only [step] at h
    cases hp : lookupA t s.heap with
    | none =>
      rw [hp] at h
      cases h
      exact hinv
    | some p =>
      rw [hp] at h
      cases h
      obtain ⟨hc, hk⟩ := hinv
      unfold encoderSetBindGroup
      cases lookupA g s.registry with
      | none => exact ⟨hc, hk⟩
      | some gb => exact ⟨hc, hk⟩
  | heapRemove id =>
    simp only [step] at h
    cases h
    exact stateInv_heapRemoveObject hinv id
  | releaseUnusedMsg id =>
    simp only [step] at h
    cases h
    exact hinv

/-- Every reachable privileged-process state satisfies the combined invariant. -/
theorem stateInv_reachable {s : GState} (h : Reachable s) : StateInv s := by
  induction h with
  | init =>
    constructor
    · intro id
      rfl
    · intro k p hp
      cases hp
  | step _ hstep ih => exact stateInv_step ih hstep

/-- C1: Registry/heap coherence. At every reachable privileged-process state,
an Identifier has an entry in ObjectRegistry if and only if a ResourceProxy for
it is alive in ObjectHeap: the proxy constructor adds its identifier to the
registry, the destructor (run on heap removal) removes it, so the registry
entry exists exactly during the proxy's lifetime. -/
theorem registry_heap_coherence (st : GState) (h : Reachable st) (id : Nat) :
    (lookupA id st.registry).isSome ↔ (lookupA id st.heap).isSome :=
  (stateInv_reachable h).1 id

theorem registry_heap_coherence_witness :
    ((lookupA 7 (deviceCreateTexture 7 GState.init).registry).isSome ↔
      (lookupA 7 (deviceCreateTexture 7 GState.init).heap).isSome) :=
  registry_heap_coherence (deviceCreateTexture 7 GState.init)
    (Reachable.step (m := Msg.createTexture 7) Reachable.init rfl) 7

/-- C2: Failed resolution of an embedded Identifier makes the operation a
silent no-op. RemoteTexture::createView whose descriptor fails
convertFromBacking returns with the state completely unchanged (no child
proxy, nothing added to ObjectHeap or ObjectRegistry, the backing resource not
called), and RemoteRenderPassEncoder::setBindGroup naming an unregistered
bind-group Identifier is dropped without mutating any state. -/
theorem resolution_failure_silent_noop (p : Proxy) (d : TextureViewDescriptor)
    (id i g : Nat) (st : GState)
    (hd : convertFromBacking st.registry d = none)
    (hg : lookupA g st.registry = none) :
    textureCreateView (some d) id st = some st ∧
    encoderSetBindGroup p i g st = st := by
  constructor
  · simp only [textureCreateView, hd]
  · simp only [encoderSetBindGroup, hg]

theorem resolution_failure_silent_noop_witness :
    textureCreateView (some ⟨[3]⟩) 9 GState.init = some GState.init ∧
    encoderSetBindGroup ⟨0, 1⟩ 0 5 GState.init = GState.init :=
  resolution_failure_silent_noop ⟨0, 1⟩ ⟨[3]⟩ 9 0 5 GState.init rfl rfl

/-- C3 counterexample: processing the Destroy wire message addressed to the
texture proxy under Identifier 1 does not make the identifier unresolvable;
RemoteTexture::destroy only forwards to the backing texture, so Identifier 1
still resolves in both ObjectHeap and ObjectRegistry afterwards. -/
theorem destroy_message_keeps_entries :
    step childScenarioBase (Msg.destroyTexture 1) =
      some (textureDestroy ⟨0, 1⟩ childScenarioBase) ∧
    lookupA 1 (textureDestroy ⟨0, 1⟩ childScenarioBase).heap ≠ none ∧
    lookupA 1 (textureDestroy ⟨0, 1⟩ childScenarioBase).registry ≠ none := by
  refine ⟨rfl, ?_, ?_⟩
  · intro h
    cases h
  · intro h
    cases h

/-- C3 amended: the Destroy wire message on a texture proxy only forwards
destroy() to the backing resource, leaving ObjectHeap and ObjectRegistry
unchanged; the identifier is removed from both structures by the ObjectHeap
removal path (proxy teardown removes the registry entry), after which it
resolves in neither. -/
theorem destroy_forward_and_heap_removal (st : GState) (t : Nat) (p : Proxy)
    (hre : Reachable st) (hp : lookupA t st.heap = some p) :
    step st (Msg.destroyTexture t) = some (textureDestroy p st) ∧
    (textureDestroy p st).heap = st.heap ∧
    (textureDestroy p st).registry = st.registry ∧
    lookupA t (heapRemoveObject t st).heap = none ∧
    lookupA t (heapRemoveObject t st).registry = none := by
  have hpid : p.identifier = t := (stateInv_reachable hre).2 t p hp
  refine ⟨?_, rfl, rfl, ?_, ?_⟩
  · simp only [step, hp]
  · unfold heapRemoveObject
    rw [hp]
    exact lookupA_removeA_self t st.heap
  · unfold heapRemoveObject
    rw [hp]
    simp only [registryRemoveObject, hpid]
    exact lookupA_removeA_self t st.registry

theorem destroy_forward_and_heap_removal_witness :
    step childScenarioBase (Msg.destroyTexture 1) =
      some (textureDestroy ⟨0, 1⟩ childScenarioBase) ∧
    (textureDestroy ⟨0, 1⟩ childScenarioBase).heap = childScenarioBase.heap ∧
    (textureDestroy ⟨0, 1⟩ childScenarioBase).registry = childScenarioBase.registry ∧
    lookupA 1 (heapRemoveObject 1 childScenarioBase).heap = none ∧
    lookupA 1 (heapRemoveObject 1 childScenarioBase).registry = none :=
  destroy_forward_and_heap_removal childScenarioBase 1 ⟨0, 1⟩
    (Reachable.step (m := Msg.createTexture 1) Reachable.init rfl) rfl

/-- C5: the release-unused race is leak-free. If the creation of Identifier c
was preempted by the client's release (so c was never registered, never put in
the heap, and no proxy for it was ever constructed), processing the
releaseUnused message for c consumes it without materializing anything: c
still has no ObjectRegistry entry, no ObjectHeap entry, and no ResourceProxy
for c was ever constructed. -/
theorem release_unused_leak_free (st : GState) (c : Nat)
    (h1 : lookupA c st.heap = none) (h2 : lookupA c st.registry = none)
    (h3 : c ∉ st.created) :
    ∀ st2, step st (Msg.releaseUnusedMsg c) = some st2 →
      lookupA c st2.heap = none ∧ lookupA c st2.registry = none ∧
        c ∉ st2.created ∧ st2 = st := by
  intro st2 hstep
  simp only [step, releaseUnused] at hstep
  cases hstep
  exact ⟨h1, h2, h3, rfl⟩

theorem release_unused_leak_free_witness :
    lookupA 4 GState.init.heap = none ∧ lookupA 4 GState.init.registry = none ∧
      (4 : Nat) ∉ GState.init.created ∧ GState.init = GState.init :=
  release_unused_leak_free GState.init 4 rfl rfl (by decide) GState.init rfl

/-- C10: simple forwarding operations (setLabel on textures and bind-group
layouts, destroy on textures, setBindGroup on encoders) call only into the
proxy's backing resource: ObjectRegistry, ObjectHeap and the created log are
completely unchanged, and no backing resource other than the proxy's own is
touched. -/
theorem forwarding_ops_frame (p : Proxy) (label : String) (i g : Nat) (st : GState) :
    (textureDestroy p st).registry = st.registry ∧
    (textureDestroy p st).heap = st.heap ∧
    (textureDestroy p st).created = st.created ∧
    (proxySetLabel p label st).registry = st.registry ∧
    (proxySetLabel p label st).heap = st.heap ∧
    (proxySetLabel p label st).created = st.created ∧
    (encoderSetBindGroup p i g st).registry = st.registry ∧
    (encoderSetBindGroup p i g st).heap = st.heap ∧
    (∀ k, k ≠ p.backing →
      lookupA k (textureDestroy p st).backings = lookupA k st.backings ∧
      lookupA k (proxySetLabel p label st).backings = lookupA k st.backings) := by
  refine ⟨rfl, rfl, rfl, rfl, rfl, rfl, ?_, ?_, ?_⟩
  · unfold encoderSetBindGroup
    cases lookupA g st.registry <;> rfl
  · unfold encoderSetBindGroup
    cases lookupA g st.registry <;> rfl
  · intro k hk
    exact ⟨lookupA_updateA_ne hk _ st.backings, lookupA_updateA_ne hk _ st.backings⟩

theorem forwarding_ops_frame_witness :
    (textureDestroy ⟨0, 1⟩ childScenarioBase).registry = childScenarioBase.registry ∧
    (textureDestroy ⟨0, 1⟩ childScenarioBase).heap = childScenarioBase.heap ∧
    (textureDestroy ⟨0, 1⟩ childScenarioBase).created = childScenarioBase.created ∧
    (proxySetLabel ⟨0, 1⟩ "t" childScenarioBase).registry = childScenarioBase.registry ∧
    (proxySetLabel ⟨0, 1⟩ "t" childScenarioBase).heap = childScenarioBase.heap ∧
    (proxySetLabel ⟨0, 1⟩ "t" childScenarioBase).created = childScenarioBase.created ∧
    (encoderSetBindGroup ⟨0, 1⟩ 0 3 childScenarioBase).registry = childScenarioBase.registry ∧
    (encoderSetBindGroup ⟨0, 1⟩ 0 3 childScenarioBase).heap = childScenarioBase.heap ∧
    (∀ k, k ≠ (Proxy.mk 0 1).backing →
      lookupA k (textureDestroy ⟨0, 1⟩ childScenarioBase).backings =
        lookupA k childScenarioBase.backings ∧
      lookupA k (proxySetLabel ⟨0, 1⟩ "t" childScenarioBase).backings =
        lookupA k childScenarioBase.backings) :=
  forwarding_ops_frame ⟨0, 1⟩ "t" 0 3 childScenarioBase

/-- Shape of ObjectHeap::removeObject when the identifier is found: the heap
entry is removed and the proxy destructor removes its own registry entry. -/
theorem heapRemoveObject_lookup_found {st : GState} {id : Nat} {p : Proxy}
    (hp : lookupA id st.heap = some p) :
    (heapRemoveObject id st).heap = removeA id st.heap ∧
    (heapRemoveObject id st).registry = removeA p.identifier st.registry := by
  unfold heapRemoveObject
  rw [hp]
  exact ⟨rfl, rfl⟩

/-- C8: Parent destruction does not disturb children. If the texture proxy
under Identifier t created a child view proxy under fresh Identifier v via
createView with a resolving descriptor, then removing t (heap removal running
the texture destructor) leaves the child's ObjectHeap and ObjectRegistry
entries unchanged and present, and v remains independently destroyable: its
own heap removal then removes v from both structures. -/
theorem parent_destroy_preserves_child (st st2 : GState) (t v : Nat) (pT : Proxy)
    (d : TextureViewDescriptor) (bs : List Nat)
    (hre : Reachable st)
    (hT : lookupA t st.heap = some pT)
    (hv : v ≠ t)
    (hvfresh : lookupA v st.heap = none)
    (hconv : convertFromBacking st.registry d = some bs)
    (hcv : step st (Msg.createView t (some d) v) = some st2) :
    lookupA v (heapRemoveObject t st2).heap = lookupA v st2.heap ∧
    lookupA v (heapRemoveObject t st2).registry = lookupA v st2.registry ∧
    (lookupA v st2.heap).isSome = true ∧
    lookupA v (heapRemoveObject v (heapRemoveObject t st2)).heap = none ∧
    lookupA v (heapRemoveObject v (heapRemoveObject t st2)).registry = none := by
  obtain ⟨hcoh, hkeys⟩ := stateInv_reachable hre
  have hpid : pT.identifier = t := hkeys t pT hT
  have hvreg : lookupA v st.registry = none := by
    cases hr : lookupA v st.registry with
    | none => rfl
    | some b2 =>
      have hiff := hcoh v
      rw [hr, hvfresh] at hiff
      simp at hiff
  have hstep : textureCreateView (some d) v st = some st2 := by
    simpa [step, hT] using hcv
  simp only [textureCreateView, hconv, proxyConstruct] at hstep
  have hexp : st2 = { st with
      backings := (st.nextBacking, Backing.fresh) :: st.backings
      nextBacking := st.nextBacking + 1
      registry := registryAddObject v st.nextBacking st.registry
      created := v :: st.created
      heap := heapAddObject ⟨st.nextBacking, v⟩ st.heap } :=
    (Option.some.inj hstep).symm
  have hA : st2.heap = (v, (⟨st.nextBacking, v⟩ : Proxy)) :: st.heap := by
    rw [hexp]
    simp [heapAddObject, hvfresh]
  have hlt2 : lookupA t st2.heap = some pT := by
    rw [hA, lookupA_cons_ne (Ne.symm hv)]
    exact hT
  obtain ⟨h3heap, h3reg⟩ := heapRemoveObject_lookup_found hlt2
  have hlv2 : lookupA v st2.heap = some ⟨st.nextBacking, v⟩ := by
    rw [hA]
    exact lookupA_cons_self v _ st.heap
  have hlv3 : lookupA v (heapRemoveObject t st2).heap = some ⟨st.nextBacking, v⟩ := by
    rw [h3heap, lookupA_removeA_ne hv, hlv2]
  obtain ⟨h4heap, h4reg⟩ := heapRemoveObject_lookup_found hlv3
  refine ⟨?_, ?_, ?_, ?_, ?_⟩
  · rw [h3heap]
    exact lookupA_removeA_ne hv st2.heap
  · rw [h3reg, hpid]
    exact lookupA_removeA_ne hv st2.registry
  · rw [hlv2]
    rfl
  · rw [h4heap]
    exact lookupA_removeA_self v (heapRemoveObject t st2).heap
  · rw [h4reg]
    exact lookupA_removeA_self v (heapRemoveObject t st2).registry

theorem parent_destroy_preserves_child_witness :
    lookupA 2 (heapRemoveObject 1 childScenarioAfterView).heap =
      lookupA 2 childScenarioAfterView.heap ∧
    lookupA 2 (heapRemoveObject 1 childScenarioAfterView).registry =
      lookupA 2 childScenarioAfterView.registry ∧
    (lookupA 2 childScenarioAfterView.heap).isSome = true ∧
    lookupA 2 (heapRemoveObject 2 (heapRemoveObject 1 childScenarioAfterView)).heap = none ∧
    lookupA 2 (heapRemoveObject 2 (heapRemoveObject 1 childScenarioAfterView)).registry = none :=
  parent_destroy_preserves_child childScenarioBase childScenarioAfterView 1 2
    ⟨0, 1⟩ ⟨[1]⟩ [0]
    (Reachable.step (m := Msg.createTexture 1) Reachable.init rfl)
    rfl (by decide) rfl rfl rfl

/-- C4 evidence: RemoteVideoFrameProxy::Properties does not round-trip through
its serialization. encode omits the reference member from the wire and decode
never reads it, then dereferences the never-assigned optional, so decoding the
encoding of any Properties value yields no Properties at all (in particular
not one equal to the original in the reference field), and the reference never
appears on the wire. -/
theorem properties_roundtrip_loses_reference (p : Properties) :
    decodeProperties (encodeProperties p) = none ∧
    WireItem.ref p.reference ∉ encodeProperties p := by
  constructor
  · rfl
  · simp [encodeProperties]

/-- Error capture leaves scopes in place: every scope after a capture is
either an original scope or an original errorless scope now holding the error
generated at time t. -/
theorem captureError_mem {e : GPUErrorKind} {t : Nat} {l : List ErrScope} {s2 : ErrScope}
    (h : s2 ∈ captureError e t l) :
    s2 ∈ l ∨ ∃ s, s ∈ l ∧ s.err = none ∧ s2 = { s with err := some (e, t) } := by
  induction l with
  | nil => simp [captureError] at h
  | cons s rest ih =>
    simp only [captureError] at h
    by_cases hm : filterMatches s.filter e
    · rw [if_pos hm] at h
      by_cases hn : s.err = none
      · rw [if_pos hn] at h
        rcases List.mem_cons.mp h with h1 | h1
        · exact Or.inr ⟨s, List.mem_cons_self s rest, hn, h1⟩
        · exact Or.inl (List.mem_cons_of_mem s h1)
      · rw [if_neg hn] at h
        exact Or.inl h
    · rw [if_neg hm] at h
      rcases List.mem_cons.mp h with h1 | h1
      · exact Or.inl (h1 ▸ List.mem_cons_self s rest)
      · rcases ih h1 with h2 | ⟨s3, hs3, hn3, he3⟩
        · exact Or.inl (List.mem_cons_of_mem s h2)
        · exact Or.inr ⟨s3, List.mem_cons_of_mem s hs3, hn3, he3⟩

/-- One error-scope event preserves timeliness of the open scopes. -/
theorem scopesTimely_devStep {st : DevState} (h : scopesTimely st) (ev : DevEvent) :
    scopesTimely (devStep st ev) := by
  cases ev with
  | push f =>
    intro s hs
    simp only [devStep, pushErrorScope] at hs ⊢
    rcases List.mem_cons.mp hs with rfl | hs2
    · refine ⟨Nat.lt_succ_self st.clock, ?_⟩
      intro e t het
      cases het
    · obtain ⟨h1, h2⟩ := h s hs2
      exact ⟨Nat.lt_succ_of_lt h1,
        fun e t het => ⟨(h2 e t het).1, Nat.lt_succ_of_lt (h2 e t het).2⟩⟩
  | genError e =>
    intro s hs
    simp only [devStep, generateError] at hs ⊢
    rcases captureError_mem hs with hs2 | ⟨s3, hs3, hn3, rfl⟩
    · obtain ⟨h1, h2⟩ := h s hs2
      exact ⟨Nat.lt_succ_of_lt h1,
        fun e2 t het => ⟨(h2 e2 t het).1, Nat.lt_succ_of_lt (h2 e2 t het).2⟩⟩
    · obtain ⟨h1, _⟩ := h s3 hs3
      refine ⟨Nat.lt_succ_of_lt h1, ?_⟩
      intro e2 t het
      cases het
      exact ⟨h1, Nat.lt_succ_self st.clock⟩
  | pop =>
    intro s hs
    cases hsc : st.scopes with
    | nil =>
      simp only [devStep, popErrorScope, hsc] at hs
      exact absurd hs (List.not_mem_nil s)
    | cons s0 rest =>
      simp only [devStep, popErrorScope, hsc] at hs ⊢
      have hmem : s ∈ st.scopes := by
        rw [hsc]
        exact List.mem_cons_of_mem s0 hs
      obtain ⟨h1, h2⟩ := h s hmem
      exact ⟨Nat.lt_succ_of_lt h1,
        fun e t het => ⟨(h2 e t het).1, Nat.lt_succ_of_lt (h2 e t het).2⟩⟩

/-- Timeliness is preserved by any run of error-scope events. -/
theorem scopesTimely_runDevFrom {st : DevState} (h : scopesTimely st)
    (evs : List DevEvent) : scopesTimely (runDevFrom st evs) := by
  induction evs generalizing st with
  | nil => exact h
  | cons e evs ih => exact ih (scopesTimely_devStep h e)

/-- Every device state reached from the initial state has timely scopes. -/
theorem scopesTimely_runDev (evs : List DevEvent) : scopesTimely (runDev evs) :=
  scopesTimely_runDevFrom (fun s hs => absurd hs (List.not_mem_nil s)) evs

/-- C6: Error scopes nest LIFO on a device. After any run of events: every
captured error of an open scope was generated after that scope's push (and
before now, hence before the scope's future pop) and a scope reports at most
one error; a popErrorScope on an empty stack completes with a protocol-error
reply instead of crashing; a popErrorScope on a nonempty stack reports exactly
the innermost (most recently pushed) scope's captured error and removes only
that scope; and a push opens a new innermost scope, so the k-th of N pops
observes the (N−k+1)-th push. -/
theorem error_scope_lifo (evs : List DevEvent) (f : ErrorFilter) :
    (∀ s, s ∈ (runDev evs).scopes → ∀ e t, s.err = some (e, t) →
        s.pushTime < t ∧ t < (runDev evs).clock) ∧
    ((runDev evs).scopes = [] →
      (popErrorScope (runDev evs)).1 = PopReply.protocolError) ∧
    (∀ s rest, (runDev evs).scopes = s :: rest →
        (popErrorScope (runDev evs)).1 = PopReply.ok s.err ∧
        (popErrorScope (runDev evs)).2.scopes = rest) ∧
    (pushErrorScope f (runDev evs)).scopes =
      ⟨f, (runDev evs).clock, none⟩ :: (runDev evs).scopes := by
  refine ⟨?_, ?_, ?_, rfl⟩
  · intro s hs e t het
    exact ((scopesTimely_runDev evs) s hs).2 e t het
  · intro hnil
    simp [popErrorScope, hnil]
  · intro s rest hcons
    exact ⟨by simp [popErrorScope, hcons], by simp [popErrorScope, hcons]⟩

theorem error_scope_lifo_witness :
    (∀ s, s ∈ (runDev [DevEvent.push ErrorFilter.validation,
        DevEvent.genError GPUErrorKind.validationError]).scopes → ∀ e t,
        s.err = some (e, t) → s.pushTime < t ∧
          t < (runDev [DevEvent.push ErrorFilter.validation,
            DevEvent.genError GPUErrorKind.validationError]).clock) ∧
    ((runDev [DevEvent.push ErrorFilter.validation,
        DevEvent.genError GPUErrorKind.validationError]).scopes = [] →
      (popErrorScope (runDev [DevEvent.push ErrorFilter.validation,
        DevEvent.genError GPUErrorKind.validationError])).1 = PopReply.protocolError) ∧
    (∀ s rest, (runDev [DevEvent.push ErrorFilter.validation,
        DevEvent.genError GPUErrorKind.validationError]).scopes = s :: rest →
        (popErrorScope (runDev [DevEvent.push ErrorFilter.validation,
          DevEvent.genError GPUErrorKind.validationError])).1 = PopReply.ok s.err ∧
        (popErrorScope (runDev [DevEvent.push ErrorFilter.validation,
          DevEvent.genError GPUErrorKind.validationError])).2.scopes = rest) ∧
    (pushErrorScope ErrorFilter.outOfMemory
        (runDev [DevEvent.push ErrorFilter.validation,
          DevEvent.genError GPUErrorKind.validationError])).scopes =
      ⟨ErrorFilter.outOfMemory,
        (runDev [DevEvent.push ErrorFilter.validation,
          DevEvent.genError GPUErrorKind.validationError]).clock, none⟩ ::
        (runDev [DevEvent.push ErrorFilter.validation,
          DevEvent.genError GPUErrorKind.validationError]).scopes :=
  error_scope_lifo
    [DevEvent.push ErrorFilter.validation, DevEvent.genError GPUErrorKind.validationError]
    ErrorFilter.outOfMemory

/-- Run of asynchronous-completion events splits over list append. -/
theorem runAsyncFrom_append (st : AsyncState) (l1 l2 : List AsyncEvent) :
    runAsyncFrom st (l1 ++ l2) = runAsyncFrom (runAsyncFrom st l1) l2 := by
  induction l1 generalizing st with
  | nil => rfl
  | cons e l1 ih =>
    simp only [List.cons_append, runAsyncFrom]
    exact ih (asyncStep st e)

/-- Invocations produced by a teardown of the pending list, counted per
handler, are exactly the pending occurrences of that handler. -/
theorem countP_map_pair (l : List Nat) (h : Nat) :
    List.countP (fun x => x.1 == h) (l.map (fun x => (x, false))) = l.count h := by
  induction l with
  | nil => rfl
  | cons a l ih =>
    by_cases hah : a = h
    · subst hah
      simp [List.countP_cons, List.count_cons, ih]
    · simp [List.countP_cons, List.count_cons, ih, hah, Ne.symm hah]

/-- Conservation of completion handlers: at every point of a run, the pending
occurrences of a handler plus its past invocations equal its starts. -/
theorem async_handler_conservation (evs : List AsyncEvent) (st : AsyncState) (h : Nat) :
    (runAsyncFrom st evs).pending.count h + invokedCount h (runAsyncFrom st evs).invoked =
      startCount h evs + st.pending.count h + invokedCount h st.invoked := by
  induction evs generalizing st with
  | nil => simp [runAsyncFrom, startCount]
  | cons e evs ih =>
    simp only [runAsyncFrom]
    rw [ih (asyncStep st e)]
    cases e with
    | start h2 =>
      simp only [asyncStep, startCount, List.count_cons]
      by_cases hh : h2 = h
      · subst hh
        simp
        omega
      · simp [hh]
    | complete h2 =>
      simp only [asyncStep, startCount]
      by_cases hmem : h2 ∈ st.pending
      · rw [if_pos hmem]
        simp only [invokedCount, List.countP_cons]
        by_cases hh : h2 = h
        · subst hh
          have hpos : 0 < st.pending.count h2 := List.count_pos_iff.mpr hmem
          rw [List.count_erase_self]
          simp
          omega
        · rw [List.count_erase_of_ne (fun hc => hh hc.symm)]
          simp [hh]
      · rw [if_neg hmem]
    | teardown =>
      simp only [asyncStep, startCount, invokedCount]
      rw [List.countP_append, countP_map_pair]
      simp
      omega

/-- C7: Exactly-once completion. For any run of asynchronous operations ending
in connection/device teardown, no handler remains in flight, and every handler
is invoked exactly as many times as it was started (so a handler started once
is invoked exactly once — never dropped, never invoked twice — whether its
work completed or the teardown failed it); teardown invokes each still-pending
handler with the failure outcome. -/
theorem async_completion_exactly_once (evs : List AsyncEvent) (h : Nat) :
    (runAsync (evs ++ [AsyncEvent.teardown])).pending = [] ∧
    invokedCount h (runAsync (evs ++ [AsyncEvent.teardown])).invoked = startCount h evs ∧
    (∀ st : AsyncState, (asyncStep st AsyncEvent.teardown).invoked =
      st.pending.map (fun x => (x, false)) ++ st.invoked) := by
  have hsplit : runAsync (evs ++ [AsyncEvent.teardown]) =
      asyncStep (runAsyncFrom ⟨[], []⟩ evs) AsyncEvent.teardown := by
    unfold runAsync
    rw [runAsyncFrom_append]
    rfl
  refine ⟨?_, ?_, fun st => rfl⟩
  · rw [hsplit]
    rfl
  · rw [hsplit]
    have h1 : invokedCount h (asyncStep (runAsyncFrom ⟨[], []⟩ evs) AsyncEvent.teardown).invoked =
        (runAsyncFrom ⟨[], []⟩ evs).pending.count h +
          invokedCount h (runAsyncFrom ⟨[], []⟩ evs).invoked := by
      simp only [asyncStep, invokedCount]
      rw [List.countP_append, countP_map_pair]
    rw [h1]
    have h2 := async_handler_conservation evs ⟨[], []⟩ h
    simpa using h2

theorem async_completion_exactly_once_witness :
    (runAsync ([AsyncEvent.start 3] ++ [AsyncEvent.teardown])).pending = [] ∧
    invokedCount 3 (runAsync ([AsyncEvent.start 3] ++ [AsyncEvent.teardown])).invoked =
      startCount 3 [AsyncEvent.start 3] ∧
    (∀ st : AsyncState, (asyncStep st AsyncEvent.teardown).invoked =
      st.pending.map (fun x => (x, false)) ++ st.invoked) :=
  async_completion_exactly_once [AsyncEvent.start 3] 3

/-- First fetch request on a fresh handle issues the single round trip. -/
theorem coalesced_first {e : FetchEvent} (he : isFetchReq e = true) :
    coalesced (fetchStep FetchState.init e) 1 := by
  cases e with
  | syncFetch => simp [fetchStep, FetchState.init, coalesced]
  | asyncFetch cb => simp [fetchStep, FetchState.init, coalesced]
  | reply p => simp [isFetchReq] at he

/-- Further fetch requests before the reply coalesce onto the in-flight round
trip without issuing another. -/
theorem coalesced_fetchStep {st : FetchState} {n : Nat} {e : FetchEvent}
    (hc : coalesced st n) (he : isFetchReq e = true) :
    coalesced (fetchStep st e) (n + 1) := by
  obtain ⟨h1, h2, h3, h4, h5⟩ := hc
  cases e with
  | syncFetch =>
    simp only [fetchStep, h1, h3, if_true]
    refine ⟨rfl, h2, rfl, h4, ?_⟩
    show st.syncWaiters + 1 + st.callbacks.length = n + 1
    omega
  | asyncFetch cb =>
    simp only [fetchStep, h1, h3, if_true]
    refine ⟨rfl, h2, rfl, h4, ?_⟩
    show st.syncWaiters + (cb :: st.callbacks).length = n + 1
    simp only [List.length_cons]
    omega
  | reply p => simp [isFetchReq] at he

/-- Coalescing is preserved by any run of fetch requests. -/
theorem coalesced_runFetchFrom {st : FetchState} {n : Nat} {evs : List FetchEvent}
    (hc : coalesced st n) (hall : ∀ e ∈ evs, isFetchReq e = true) :
    coalesced (runFetchFrom st evs) (n + evs.length) := by
  induction evs generalizing st n with
  | nil => simpa using hc
  | cons e evs ih =>
    simp only [runFetchFrom, List.length_cons]
    have hrec := ih (coalesced_fetchStep hc (hall e (List.mem_cons_self e evs)))
      (fun e2 he2 => hall e2 (List.mem_cons_of_mem e he2))
    have harith : n + (evs.length + 1) = (n + 1) + evs.length := by omega
    rw [harith]
    exact hrec

/-- C9: Fetch coalescing. For any nonempty sequence of synchronous and
asynchronous payload fetches on the same handle before any reply arrives,
exactly one FetchPayload round trip is issued and nothing is delivered yet;
when the single reply arrives, it is memoized and every blocked synchronous
caller and every registered callback receives the same resolved payload. -/
theorem fetch_coalescing (e0 : FetchEvent) (evs : List FetchEvent) (p : Nat)
    (hall : ∀ e ∈ e0 :: evs, isFetchReq e = true) :
    (runFetch (e0 :: evs)).roundTrips = 1 ∧
    (runFetch (e0 :: evs)).delivered = [] ∧
    (runFetch (e0 :: evs)).syncWaiters + (runFetch (e0 :: evs)).callbacks.length =
      evs.length + 1 ∧
    (fetchStep (runFetch (e0 :: evs)) (FetchEvent.reply p)).delivered =
      List.replicate (runFetch (e0 :: evs)).syncWaiters ((none : Option Nat), p) ++
        (runFetch (e0 :: evs)).callbacks.map (fun c => (some c, p)) ∧
    (∀ x, x ∈ (fetchStep (runFetch (e0 :: evs)) (FetchEvent.reply p)).delivered →
      x.2 = p) ∧
    (fetchStep (runFetch (e0 :: evs)) (FetchEvent.reply p)).cache = some p := by
  have hc0 : coalesced (fetchStep FetchState.init e0) 1 :=
    coalesced_first (hall e0 (List.mem_cons_self e0 evs))
  have hc : coalesced (runFetch (e0 :: evs)) (1 + evs.length) := by
    have hrun := coalesced_runFetchFrom hc0
      (fun e he => hall e (List.mem_cons_of_mem e0 he))
    simpa [runFetch, runFetchFrom] using hrun
  obtain ⟨h1, h2, h3, h4, h5⟩ := hc
  have hdel : (fetchStep (runFetch (e0 :: evs)) (FetchEvent.reply p)).delivered =
      List.replicate (runFetch (e0 :: evs)).syncWaiters ((none : Option Nat), p) ++
        (runFetch (e0 :: evs)).callbacks.map (fun c => (some c, p)) := by
    simp [fetchStep, h2]
  refine ⟨h4, h2, by omega, hdel, ?_, rfl⟩
  · intro x hx
    rw [hdel] at hx
    rcases List.mem_append.mp hx with hx1 | hx2
    · rw [List.eq_of_mem_replicate hx1]
    · rcases List.mem_map.mp hx2 with ⟨c, _, hcx⟩
      rw [← hcx]

theorem fetch_coalescing_witness :
    (runFetch (FetchEvent.syncFetch :: [FetchEvent.asyncFetch 5])).roundTrips = 1 ∧
    (runFetch (FetchEvent.syncFetch :: [FetchEvent.asyncFetch 5])).delivered = [] ∧
    (runFetch (FetchEvent.syncFetch :: [FetchEvent.asyncFetch 5])).syncWaiters +
      (runFetch (FetchEvent.syncFetch :: [FetchEvent.asyncFetch 5])).callbacks.length =
      [FetchEvent.asyncFetch 5].length + 1 ∧
    (fetchStep (runFetch (FetchEvent.syncFetch :: [FetchEvent.asyncFetch 5]))
        (FetchEvent.reply 42)).delivered =
      List.replicate (runFetch (FetchEvent.syncFetch :: [FetchEvent.asyncFetch 5])).syncWaiters
          ((none : Option Nat), 42) ++
        (runFetch (FetchEvent.syncFetch :: [FetchEvent.asyncFetch 5])).callbacks.map
          (fun c => (some c, 42)) ∧
    (∀ x, x ∈ (fetchStep (runFetch (FetchEvent.syncFetch :: [FetchEvent.asyncFetch 5]))
        (FetchEvent.reply 42)).delivered → x.2 = 42) ∧
    (fetchStep (runFetch (FetchEvent.syncFetch :: [FetchEvent.asyncFetch 5]))
        (FetchEvent.reply 42)).cache = some 42 :=
  fetch_coalescing FetchEvent.syncFetch [FetchEvent.asyncFetch 5] 42 (by decide)
